/-
Verification of the solar-position calculator in src/sun.py.

The single function of interest is `sunPosition(year, month, day, hour, m, s,
lat, long)` (lines 9-93 of src/sun.py).  It is embedded here over the real
numbers:

* Python's float `%` with a positive modulus is `pyMod` (result in [0, y));
* Python's float `/`, which raises ZeroDivisionError on a denominator that is
  exactly zero, is the fallible `pyDiv` returning an `Option`;
* Python list indexing (which accepts negative indices and raises IndexError
  out of range) is the fallible `pyIndex`;
* the trigonometric primitives are the Mathlib functions on ℝ.  `math.asin`
  raises for arguments outside [-1, 1], but every argument reached by the
  pipeline lies in [-1, 1] in exact arithmetic, so total `arcsin` is faithful.

Each named stage definition mirrors the corresponding lines of the source.
-/

import Mathlib

open Real

open scoped Classical

/-- Python's float modulus `x % y`: the representative of x mod y
with the sign of the divisor, so for y > 0 the result is in [0, y). -/
noncomputable def pyMod (x y : ℝ) : ℝ := x - y * ⌊x / y⌋

/-- Python's float division, which raises ZeroDivisionError when the
denominator is exactly zero. -/
noncomputable def pyDiv (a b : ℝ) : Option ℝ := if b = 0 then none else some (a / b)

/-- Python list indexing `l[i]`: negative indices count from the end,
anything out of range raises IndexError. -/
def pyIndex (l : List ℤ) (i : ℤ) : Option ℤ :=
  if 0 ≤ i then l.get? i.toNat
  else if 0 ≤ i + l.length then l.get? (i + l.length).toNat
  else none

/-- numpy.cumsum on a list of integers (running partial sums, one per element). -/
def cumsum (l : List ℤ) : List ℤ := (l.scanl (· + ·) 0).tail

/-- The month-length table of src/sun.py line 14 (leading 0, then the
lengths of January through November, non-leap). -/
def len_month : List ℤ := [0, 31, 28, 31, 30, 31, 30, 31, 31, 30, 31, 30]

/-- Lines 14-17: day of the year.  The accumulated table value for the month
is added to the day of the month, and one extra day is added when the year
passes the Gregorian leap test, the accumulated value is at least 60, and the
date is not exactly Feb 29 (month 2, accumulated day 60). -/
def dayOfYear (year month day : ℤ) : Option ℤ :=
  (pyIndex (cumsum len_month) (month - 1)).map fun c =>
    let d := day + c
    d + (if year % 4 = 0 ∧ (year % 400 = 0 ∨ year % 100 ≠ 0) ∧ 60 ≤ d ∧ ¬(month = 2 ∧ d = 60)
         then 1 else 0)

/-- Line 11. -/
noncomputable def deg2rad : ℝ := π / 180

/-- Line 10. -/
noncomputable def twopi : ℝ := 2 * π

/-- Lines 21-23: Julian date minus 2400000, from the year, the day of the
year and the fractional hour. -/
noncomputable def jdOf (year doy : ℤ) (hr : ℝ) : ℝ :=
  32916.5 + ((year : ℝ) - 1949) * 365 + (⌊((year : ℝ) - 1949) / 4⌋ : ℤ) + (doy : ℝ) + hr / 24

/-- Line 27: days since epoch J2000.0 (JD 2451545.0). -/
noncomputable def timeOf (year doy : ℤ) (hr : ℝ) : ℝ := jdOf year doy hr - 51545

/-- The `v = v % 360; v += int(v < 0) * 360` normalisation used at
lines 32-33, 37-38 and 43-44. -/
noncomputable def mod360 (x : ℝ) : ℝ := pyMod x 360 + (if pyMod x 360 < 0 then 360 else 0)

/-- The `v = v % 24; v += int(v < 0) * 24` normalisation used at
lines 61-62 and 66-67. -/
noncomputable def mod24 (x : ℝ) : ℝ := pyMod x 24 + (if pyMod x 24 < 0 then 24 else 0)

/-- Lines 31-33: mean longitude, degrees. -/
noncomputable def mnlongOf (time : ℝ) : ℝ := mod360 (280.460 + 0.9856474 * time)

/-- Lines 36-39: mean anomaly, radians. -/
noncomputable def mnanomOf (time : ℝ) : ℝ := mod360 (357.528 + 0.9856003 * time) * deg2rad

/-- Lines 42-44: ecliptic longitude in degrees, before the radian conversion. -/
noncomputable def eclongDegOf (time : ℝ) : ℝ :=
  mod360 (mnlongOf time + 1.915 * sin (mnanomOf time) + 0.020 * sin (2 * mnanomOf time))

/-- Line 46: ecliptic longitude, radians. -/
noncomputable def eclongOf (time : ℝ) : ℝ := eclongDegOf time * deg2rad

/-- Lines 45 and 47: obliquity of the ecliptic, radians. -/
noncomputable def oblqecOf (time : ℝ) : ℝ := (23.439 - 0.0000004 * time) * deg2rad

/-- Line 51: numerator of the right-ascension quotient. -/
noncomputable def numOf (time : ℝ) : ℝ := cos (oblqecOf time) * sin (eclongOf time)

/-- Line 52: denominator of the right-ascension quotient. -/
noncomputable def denOf (time : ℝ) : ℝ := cos (eclongOf time)

/-- Lines 53-55: two-quadrant arctangent of the quotient q plus the two
sign corrections (add π when den < 0; add 2π when den ≥ 0 and num < 0). -/
noncomputable def raCorrect (num den q : ℝ) : ℝ :=
  arctan q + (if den < 0 then π else 0) + (if 0 ≤ den ∧ num < 0 then twopi else 0)

/-- Right ascension as a pure value (exact division of num by den). -/
noncomputable def raOf (time : ℝ) : ℝ :=
  raCorrect (numOf time) (denOf time) (numOf time / denOf time)

/-- Line 56: declination. -/
noncomputable def decOf (time : ℝ) : ℝ := arcsin (sin (oblqecOf time) * sin (eclongOf time))

/-- Lines 60-62: Greenwich mean sidereal time, hours in [0, 24). -/
noncomputable def gmstOf (time hr : ℝ) : ℝ := mod24 (6.697375 + 0.0657098242 * time + hr)

/-- Lines 65-68: local mean sidereal time, radians. -/
noncomputable def lmstOf (time hr long : ℝ) : ℝ := mod24 (gmstOf time hr + long / 15) * 15 * deg2rad

/-- Lines 72-73: the two sequential conditional 2π shifts applied to
lmst - ra. -/
noncomputable def haCorrect (x : ℝ) : ℝ :=
  let y := x + (if x < -π then twopi else 0)
  y - (if π < y then twopi else 0)

/-- Hour angle as a pure value. -/
noncomputable def haOf (time hr long : ℝ) : ℝ := haCorrect (lmstOf time hr long - raOf time)

/-- Line 79: elevation, radians, as a pure value. -/
noncomputable def elOf (time hr lat long : ℝ) : ℝ :=
  arcsin (sin (decOf time) * sin (lat * deg2rad) +
    cos (decOf time) * cos (lat * deg2rad) * cos (haOf time hr long))

/-- Lines 83-87: Spencer's quadrant correction of the raw azimuth az0. -/
noncomputable def azCorrect (dec el latr az0 : ℝ) : ℝ :=
  let cosAzPos := 0 ≤ sin dec - sin el * sin latr
  let az1 := az0 + (if cosAzPos ∧ sin az0 < 0 then twopi else 0)
  if cosAzPos then az1 else π - az1

/-- Lines 56-93 after the right ascension has been obtained: declination,
sidereal times, hour angle, elevation, and the azimuth with its fallible
division by cos(el).  Returns (azimuth, elevation) in degrees. -/
noncomputable def afterRa (time hr lat long ra : ℝ) : Option (ℝ × ℝ) :=
  let dec := decOf time
  let lmst := lmstOf time hr long
  let ha := haCorrect (lmst - ra)
  let latr := lat * deg2rad
  let el := arcsin (sin dec * sin latr + cos dec * cos latr * cos ha)
  (pyDiv (-(cos dec) * sin ha) (cos el)).map fun q2 =>
    (azCorrect dec el latr (arcsin q2) / deg2rad, el / deg2rad)

/-- Lines 9-93: the whole of sunPosition. -/
noncomputable def sunPosition (year month day : ℤ) (hour m s lat long : ℝ) : Option (ℝ × ℝ) :=
  (dayOfYear year month day).bind fun doy =>
    let hr := hour + m / 60 + s / 3600
    let time := timeOf year doy hr
    (pyDiv (numOf time) (denOf time)).bind fun q =>
      afterRa time hr lat long (raCorrect (numOf time) (denOf time) q)

/-- The Gregorian leap-year test exactly as the spec words it. -/
def isLeapYear (y : ℤ) : Prop := y % 4 = 0 ∧ (y % 400 = 0 ∨ y % 100 ≠ 0)

instance (y : ℤ) : Decidable (isLeapYear y) := by unfold isLeapYear; infer_instance

/-- The output ranges the spec promises: azimuth in [0, 360), elevation in
[-90, 90]. -/
def inRanges (p : ℝ × ℝ) : Prop := 0 ≤ p.1 ∧ p.1 < 360 ∧ -90 ≤ p.2 ∧ p.2 ≤ 90

/-! ### Basic facts about pyMod -/

lemma pyMod_nonneg (x : ℝ) {y : ℝ} (hy : 0 < y) : 0 ≤ pyMod x y := by
  have h1 : (⌊x / y⌋ : ℝ) ≤ x / y := Int.floor_le _
  have h2 : y * (⌊x / y⌋ : ℝ) ≤ y * (x / y) := mul_le_mul_of_nonneg_left h1 hy.le
  have h3 : y * (x / y) = x := by field_simp
  simp only [pyMod]
  linarith

lemma pyMod_lt (x : ℝ) {y : ℝ} (hy : 0 < y) : pyMod x y < y := by
  have h1 : x / y < (⌊x / y⌋ : ℝ) + 1 := Int.lt_floor_add_one _
  have h2 : y * (x / y) < y * ((⌊x / y⌋ : ℝ) + 1) := by
    exact mul_lt_mul_of_pos_left h1 hy
  have h3 : y * (x / y) = x := by field_simp
  simp only [pyMod]
  nlinarith

lemma pyMod_eq_self {x y : ℝ} (h0 : 0 ≤ x) (h1 : x < y) : pyMod x y = x := by
  have hy : 0 < y := lt_of_le_of_lt h0 h1
  have hfl : ⌊x / y⌋ = 0 := by
    rw [Int.floor_eq_zero_iff]
    constructor
    · exact div_nonneg h0 hy.le
    · rw [div_lt_one hy]; exact h1
  simp [pyMod, hfl]

lemma pyMod_add_cancel (x : ℝ) {y : ℝ} (hy : y ≠ 0) : pyMod (x + y) y = pyMod x y := by
  have h1 : (x + y) / y = x / y + 1 := by field_simp
  simp only [pyMod, h1, Int.floor_add_one]
  push_cast
  ring

lemma mod24_eq (x : ℝ) : mod24 x = pyMod x 24 := by
  have h : ¬ pyMod x 24 < 0 := not_lt.2 (pyMod_nonneg x (by norm_num))
  simp [mod24, h]

lemma mod24_nonneg (x : ℝ) : 0 ≤ mod24 x := by
  rw [mod24_eq]; exact pyMod_nonneg x (by norm_num)

lemma mod24_lt (x : ℝ) : mod24 x < 24 := by
  rw [mod24_eq]; exact pyMod_lt x (by norm_num)

lemma mod24_eq_self {x : ℝ} (h0 : 0 ≤ x) (h1 : x < 24) : mod24 x = x := by
  rw [mod24_eq]; exact pyMod_eq_self h0 h1

lemma mod360_eq (x : ℝ) : mod360 x = pyMod x 360 := by
  have h : ¬ pyMod x 360 < 0 := not_lt.2 (pyMod_nonneg x (by norm_num))
  simp [mod360, h]

lemma mod360_nonneg (x : ℝ) : 0 ≤ mod360 x := by
  rw [mod360_eq]; exact pyMod_nonneg x (by norm_num)

lemma mod360_lt (x : ℝ) : mod360 x < 360 := by
  rw [mod360_eq]; exact pyMod_lt x (by norm_num)

lemma mod360_eq_self {x : ℝ} (h0 : 0 ≤ x) (h1 : x < 360) : mod360 x = x := by
  rw [mod360_eq]; exact pyMod_eq_self h0 h1

/-! ### Sign facts about arctan, and ranges of the corrected angles -/

lemma arctan_neg_of_neg {x : ℝ} (h : x < 0) : arctan x < 0 := by
  have h2 := Real.arctan_strictMono h
  simpa [Real.arctan_zero] using h2

lemma arctan_nonneg_of_nonneg {x : ℝ} (h : 0 ≤ x) : 0 ≤ arctan x := by
  have h2 := Real.arctan_strictMono.monotone h
  simpa [Real.arctan_zero] using h2

lemma arctan_div_nonpos_of_nonneg {num den : ℝ} (hden : 0 ≤ den) (hnum : num < 0) :
    arctan (num / den) ≤ 0 := by
  rcases eq_or_lt_of_le hden with h0 | hpos
  · simp [← h0, Real.arctan_zero]
  · exact (arctan_neg_of_neg (div_neg_of_neg_of_pos hnum hpos)).le

/-- The corrected right ascension always lands in [0, 2π] (2π itself only in
the degenerate den = 0 case, where the real code would already have failed). -/
lemma raCorrect_mem (num den : ℝ) : raCorrect num den (num / den) ∈ Set.Icc 0 (2 * π) := by
  have hpi := Real.pi_pos
  have hlt := Real.arctan_lt_pi_div_two (num / den)
  have hgt := Real.neg_pi_div_two_lt_arctan (num / den)
  unfold raCorrect twopi
  split_ifs with h1 h2 h2
  · exact absurd h2.1 (not_le.2 h1)
  · constructor <;> linarith
  · have hnp := arctan_div_nonpos_of_nonneg h2.1 h2.2
    constructor <;> linarith
  · push_neg at h1 h2
    have hq : 0 ≤ num / den := div_nonneg (h2 h1) h1
    have := arctan_nonneg_of_nonneg hq
    constructor <;> linarith

/-- The hour-angle normalisation maps [-2π, 2π) into [-π, π]. -/
lemma haCorrect_mem {x : ℝ} (h1 : -(2 * π) ≤ x) (h2 : x < 2 * π) :
    haCorrect x ∈ Set.Icc (-π) π := by
  have hpi := Real.pi_pos
  simp only [haCorrect, twopi]
  split_ifs with ha hb hb <;> constructor <;> simp_all <;> linarith

/-- Local mean sidereal time in radians is in [0, 2π). -/
lemma lmstOf_mem (time hr long : ℝ) : lmstOf time hr long ∈ Set.Ico 0 (2 * π) := by
  have hpi := Real.pi_pos
  have h0 := mod24_nonneg (gmstOf time hr + long / 15)
  have h1 := mod24_lt (gmstOf time hr + long / 15)
  unfold lmstOf deg2rad
  constructor
  · positivity
  · nlinarith


/-! ### The spec's four-quadrant arctangent (claim C6) -/

/-- Modelled from the spec's words in stage 7: the direct four-quadrant
arctangent of (numerator, denominator). -/
noncomputable def atan2spec (y x : ℝ) : ℝ :=
  if 0 < x then arctan (y / x)
  else if x < 0 ∧ 0 ≤ y then arctan (y / x) + π
  else if x < 0 ∧ y < 0 then arctan (y / x) - π
  else if x = 0 ∧ 0 < y then π / 2
  else if x = 0 ∧ y < 0 then -(π / 2)
  else 0

/-- Modelled from the spec's words in stage 7: the four-quadrant angle
normalised into [0, 2π). -/
noncomputable def atan2specNorm (y x : ℝ) : ℝ :=
  atan2spec y x + (if atan2spec y x < 0 then 2 * π else 0)

/-- C6: whenever the denominator cos(eclipticLongitude) is nonzero, the
two-quadrant arctangent with the source's quadrant corrections (lines 53-55)
agrees with the direct four-quadrant arctangent of (numerator, denominator)
normalised into [0, 2π). -/
theorem C6_ra_refines_atan2 (num den : ℝ) (hden : den ≠ 0) :
    raCorrect num den (num / den) = atan2specNorm num den := by
  have hpi := Real.pi_pos
  have hlt := Real.arctan_lt_pi_div_two (num / den)
  have hgt := Real.neg_pi_div_two_lt_arctan (num / den)
  rcases lt_or_gt_of_ne hden with hneg | hpos
  · rcases lt_or_le num 0 with hn | hn
    · -- den < 0, num < 0
      have hq : 0 < num / den := div_pos_of_neg_of_neg hn hneg
      have harc : 0 < arctan (num / den) := by
        have h2 := Real.arctan_strictMono hq
        simpa [Real.arctan_zero] using h2
      have hra : raCorrect num den (num / den) = arctan (num / den) + π := by
        rw [raCorrect, if_pos hneg, if_neg (by rintro ⟨h, -⟩; linarith)]
        ring
      have hsp : atan2spec num den = arctan (num / den) - π := by
        rw [atan2spec, if_neg (by linarith), if_neg (by rintro ⟨-, h⟩; linarith),
          if_pos ⟨hneg, hn⟩]
      rw [atan2specNorm, hsp, hra, if_pos (by linarith)]
      ring
    · -- den < 0, 0 ≤ num
      have hq : num / den ≤ 0 := div_nonpos_of_nonneg_of_nonpos hn hneg.le
      have harc : arctan (num / den) ≤ 0 := by
        rcases eq_or_lt_of_le hq with h0 | hlt0
        · simp [h0, Real.arctan_zero]
        · exact (arctan_neg_of_neg hlt0).le
      have hra : raCorrect num den (num / den) = arctan (num / den) + π := by
        rw [raCorrect, if_pos hneg, if_neg (by rintro ⟨h, -⟩; linarith)]
        ring
      have hsp : atan2spec num den = arctan (num / den) + π := by
        rw [atan2spec, if_neg (by linarith), if_pos ⟨hneg, hn⟩]
      rw [atan2specNorm, hsp, hra, if_neg (by push_neg; linarith)]
      ring
  · rcases lt_or_le num 0 with hn | hn
    · -- 0 < den, num < 0
      have hq : num / den < 0 := div_neg_of_neg_of_pos hn hpos
      have harc := arctan_neg_of_neg hq
      have hra : raCorrect num den (num / den) = arctan (num / den) + 2 * π := by
        rw [raCorrect, if_neg (by linarith), if_pos ⟨hpos.le, hn⟩, twopi]
        ring
      have hsp : atan2spec num den = arctan (num / den) := by
        rw [atan2spec, if_pos hpos]
      rw [atan2specNorm, hsp, hra, if_pos harc]
    · -- 0 < den, 0 ≤ num
      have hq : 0 ≤ num / den := div_nonneg hn hpos.le
      have harc := arctan_nonneg_of_nonneg hq
      have hra : raCorrect num den (num / den) = arctan (num / den) := by
        rw [raCorrect, if_neg (by linarith), if_neg (by rintro ⟨-, h⟩; linarith)]
        ring
      have hsp : atan2spec num den = arctan (num / den) := by
        rw [atan2spec, if_pos hpos]
      rw [atan2specNorm, hsp, hra, if_neg (by push_neg; linarith)]
      ring

/-- Witness for C6 at num = 1, den = 1. -/
theorem C6_witness : raCorrect 1 1 (1 / 1) = atan2specNorm 1 1 :=
  C6_ra_refines_atan2 1 1 (by norm_num)

/-! ### Claim C2: the leap-day rule in the day-of-year stage -/

/-- C2: an extra day is added exactly when the year passes the Gregorian
leap test, the accumulated day-of-year is at least 60, and the date is not
Feb 29 itself (month 2 with accumulated value 60); consequently on a leap
year Feb 29 yields day-of-year 60 and Mar 1 yields 61, differing by one. -/
theorem C2_leap_day_rule :
    (∀ (year month day c : ℤ), pyIndex (cumsum len_month) (month - 1) = some c →
      dayOfYear year month day =
        some (day + c +
          if isLeapYear year ∧ 60 ≤ day + c ∧ ¬(month = 2 ∧ day + c = 60) then 1 else 0)) ∧
    (∀ year : ℤ, isLeapYear year →
      dayOfYear year 2 29 = some 60 ∧ dayOfYear year 3 1 = some 61) := by
  constructor
  · intro year month day c hidx
    rw [dayOfYear, hidx, Option.map_some']
    have hiff : (year % 4 = 0 ∧ (year % 400 = 0 ∨ year % 100 ≠ 0) ∧ 60 ≤ day + c ∧
        ¬(month = 2 ∧ day + c = 60)) ↔
        (isLeapYear year ∧ 60 ≤ day + c ∧ ¬(month = 2 ∧ day + c = 60)) := by
      rw [isLeapYear]; tauto
    show some (day + c + (if year % 4 = 0 ∧ (year % 400 = 0 ∨ year % 100 ≠ 0) ∧ 60 ≤ day + c ∧
        ¬(month = 2 ∧ day + c = 60) then 1 else 0)) = _
    rw [if_congr hiff rfl rfl]
  · intro year hy
    obtain ⟨h4, h400⟩ := hy
    constructor
    · have hidx : pyIndex (cumsum len_month) (2 - 1) = some 31 := by rfl
      rw [dayOfYear, hidx, Option.map_some']
      show some ((29 : ℤ) + 31 + (if year % 4 = 0 ∧ (year % 400 = 0 ∨ year % 100 ≠ 0) ∧
          (60 : ℤ) ≤ 29 + 31 ∧ ¬((2 : ℤ) = 2 ∧ (29 : ℤ) + 31 = 60) then 1 else 0)) = some 60
      rw [if_neg]
      · norm_num
      · rintro ⟨-, -, -, hnot⟩
        exact hnot ⟨rfl, by norm_num⟩
    · have hidx : pyIndex (cumsum len_month) (3 - 1) = some 59 := by rfl
      rw [dayOfYear, hidx, Option.map_some']
      show some ((1 : ℤ) + 59 + (if year % 4 = 0 ∧ (year % 400 = 0 ∨ year % 100 ≠ 0) ∧
          (60 : ℤ) ≤ 1 + 59 ∧ ¬((3 : ℤ) = 2 ∧ (1 : ℤ) + 59 = 60) then 1 else 0)) = some 61
      rw [if_pos ⟨h4, h400, by norm_num, by rintro ⟨h2, -⟩; exact absurd h2 (by norm_num)⟩]
      norm_num

/-- Witness for C2 on the leap year 2024. -/
theorem C2_witness : dayOfYear 2024 2 29 = some 60 ∧ dayOfYear 2024 3 1 = some 61 :=
  C2_leap_day_rule.2 2024 (by decide)

/-! ### Claim C5: the Julian-date stage -/

/-- C5: the internal time value is 32916.5 + (year-1949)*365 +
floor((year-1949)/4) + dayOfYear + fractionalHour/24 - 51545, with dayOfYear
the stage-1 result and fractionalHour = hour + minute/60 + second/3600. -/
theorem C5_time_formula (year month day doy : ℤ) (hour m s : ℝ)
    (_hdoy : dayOfYear year month day = some doy) :
    timeOf year doy (hour + m / 60 + s / 3600) =
      32916.5 + ((year : ℝ) - 1949) * 365 + (⌊((year : ℝ) - 1949) / 4⌋ : ℤ) + (doy : ℝ)
        + (hour + m / 60 + s / 3600) / 24 - 51545 := by
  rw [timeOf, jdOf]

/-- Witness for C5 at 2024-06-20 12:00:00 (day of year 172). -/
theorem C5_witness :
    timeOf 2024 172 (12 + (0 : ℝ) / 60 + (0 : ℝ) / 3600) =
      32916.5 + ((2024 : ℝ) - 1949) * 365 + (⌊((2024 : ℝ) - 1949) / 4⌋ : ℤ) + ((172 : ℤ) : ℝ)
        + (12 + (0 : ℝ) / 60 + (0 : ℝ) / 3600) / 24 - 51545 :=
  C5_time_formula 2024 6 20 172 12 0 0 (by decide)

/-! ### Claim C8: determinism -/

/-- C8: sunPosition is a pure function of its eight arguments: two calls on
identical inputs return identical results.  (The source reads and writes no
module-level state inside sunPosition; the embedding is therefore a function,
and determinism holds definitionally.) -/
theorem C8_deterministic (year month day : ℤ) (hour m s lat long : ℝ) :
    sunPosition year month day hour m s lat long =
      sunPosition year month day hour m s lat long := rfl

/-! ### Claim C9: periodicity in longitude -/

lemma lmstOf_add_360 (time hr long : ℝ) : lmstOf time hr (long + 360) = lmstOf time hr long := by
  have h : gmstOf time hr + (long + 360) / 15 = (gmstOf time hr + long / 15) + 24 := by ring
  rw [lmstOf, lmstOf, h, mod24_eq, mod24_eq, pyMod_add_cancel _ (by norm_num)]

/-- C9: sunPosition is periodic in longitude with period 360 degrees,
because the local-sidereal-time stage reduces modulo 24 hours. -/
theorem C9_longitude_period (year month day : ℤ) (hour m s lat long : ℝ) :
    sunPosition year month day hour m s lat (long + 360) =
      sunPosition year month day hour m s lat long := by
  simp only [sunPosition, afterRa, lmstOf_add_360]

/-! ### Claim C10: minutes and seconds fold into the hour -/

/-- C10: the time-of-day inputs act only through the combined fractional
hour hour + m/60 + s/3600 (line 20 of the source). -/
theorem C10_minutes_fold (year month day : ℤ) (hour m s lat long : ℝ) :
    sunPosition year month day hour m s lat long =
      sunPosition year month day (hour + m / 60 + s / 3600) 0 0 lat long := by
  have h : hour + m / 60 + s / 3600 + (0 : ℝ) / 60 + (0 : ℝ) / 3600
      = hour + m / 60 + s / 3600 := by ring
  simp only [sunPosition, h]

/-! ### Claim C7 (amended part): the hour angle lies in [-π, π] -/

/-- C7 (amended): the internal hour angle — local sidereal time minus right
ascension followed by the two conditional 2π shifts — always lies in the
closed interval [-π, π].  (The left endpoint -π is attained exactly when
lmst - ra = -π, so the open-left interval of the claim is not quite right.) -/
theorem C7_hour_angle_range (time hr long : ℝ) :
    -π ≤ haOf time hr long ∧ haOf time hr long ≤ π := by
  have hl := lmstOf_mem time hr long
  have hr2 := raCorrect_mem (numOf time) (denOf time)
  have hmem := haCorrect_mem (x := lmstOf time hr long - raOf time)
    (by have := hr2.2; have := hl.1; rw [raOf]; simp only [Set.mem_Ico] at hl; linarith)
    (by have := hr2.1; have := hl.2; rw [raOf]; simp only [Set.mem_Ico] at hl; linarith)
  exact ⟨hmem.1, hmem.2⟩

/-! ### Claim C1: output ranges -/

/-- The number of days of a month of the Gregorian calendar (spec-side
validity notion only; the source performs no such check). -/
def daysInMonth (year month : ℤ) : ℤ :=
  if month = 2 then (if isLeapYear year then 29 else 28)
  else if month = 4 ∨ month = 6 ∨ month = 9 ∨ month = 11 then 30
  else 31

/-- The Spencer quadrant correction maps a raw azimuth in [-π/2, π/2]
into [0, 2π). -/
lemma azCorrect_mem (dec el latr : ℝ) {az0 : ℝ} (h1 : -(π / 2) ≤ az0) (h2 : az0 ≤ π / 2) :
    azCorrect dec el latr az0 ∈ Set.Ico 0 (2 * π) := by
  have hpi := Real.pi_pos
  have hsin_nonneg : 0 ≤ az0 → 0 ≤ sin az0 := fun h =>
    Real.sin_nonneg_of_nonneg_of_le_pi h (by linarith)
  have hsin_neg : az0 < 0 → sin az0 < 0 := fun h =>
    Real.sin_neg_of_neg_of_neg_pi_lt h (by linarith)
  simp only [azCorrect, twopi]
  split_ifs with hB hA hA
  · -- cosAzPos holds, sin az0 < 0: az0 + 2π
    have haz : az0 < 0 := by
      by_contra hcon
      push_neg at hcon
      linarith [hsin_nonneg hcon, hA.2]
    constructor <;> linarith
  · -- cosAzPos holds, sin az0 ≥ 0: az0 unchanged
    have haz : 0 ≤ az0 := by
      by_contra hcon
      push_neg at hcon
      exact hA ⟨hB, hsin_neg hcon⟩
    constructor <;> linarith
  · exact absurd hA.1 hB
  · -- cosAzPos fails: π - az0
    constructor <;> linarith

/-- Dividing an angle in [0, 2π) (azimuth) and one in [-π/2, π/2]
(elevation) by deg2rad lands in the advertised degree ranges. -/
lemma pair_ranges {az el : ℝ} (h1 : 0 ≤ az) (h2 : az < 2 * π) (h3 : -(π / 2) ≤ el)
    (h4 : el ≤ π / 2) : inRanges (az / deg2rad, el / deg2rad) := by
  have hpi := Real.pi_pos
  have hd : (0 : ℝ) < deg2rad := by rw [deg2rad]; positivity
  unfold inRanges
  refine ⟨div_nonneg h1 hd.le, ?_, ?_, ?_⟩
  · show az / deg2rad < 360
    rw [div_lt_iff₀ hd, deg2rad]
    linarith
  · show -90 ≤ el / deg2rad
    rw [le_div_iff₀ hd, deg2rad]
    linarith
  · show el / deg2rad ≤ 90
    rw [div_le_iff₀ hd, deg2rad]
    linarith

/-- Whatever the right ascension passed in, every pair afterRa returns is in
the advertised ranges. -/
lemma afterRa_ranges (time hr lat long ra : ℝ) :
    (afterRa time hr lat long ra).elim True inRanges := by
  rw [afterRa]
  rcases hq : pyDiv (-(cos (decOf time)) * sin (haCorrect (lmstOf time hr long - ra)))
      (cos (arcsin (sin (decOf time) * sin (lat * deg2rad) +
        cos (decOf time) * cos (lat * deg2rad) * cos (haCorrect (lmstOf time hr long - ra)))))
      with _ | q2
  · simp [hq]
  · simp only [hq, Option.map_some', Option.elim]
    have haz := azCorrect_mem (decOf time)
      (arcsin (sin (decOf time) * sin (lat * deg2rad) +
        cos (decOf time) * cos (lat * deg2rad) * cos (haCorrect (lmstOf time hr long - ra))))
      (lat * deg2rad) (Real.neg_pi_div_two_le_arcsin q2) (Real.arcsin_le_pi_div_two q2)
    exact pair_ranges haz.1 haz.2 (Real.neg_pi_div_two_le_arcsin _) (Real.arcsin_le_pi_div_two _)

/-- C1: for every valid input (date valid in the Gregorian calendar,
latitude in [-90, 90], longitude in [-180, 180]), any pair sunPosition
returns has azimuth in [0, 360) and elevation in [-90, 90]. -/
theorem C1_output_ranges (year month day : ℤ) (hour m s lat long : ℝ)
    (_hdate : 1 ≤ month ∧ month ≤ 12 ∧ 1 ≤ day ∧ day ≤ daysInMonth year month)
    (_hloc : -90 ≤ lat ∧ lat ≤ 90 ∧ -180 ≤ long ∧ long ≤ 180) :
    (sunPosition year month day hour m s lat long).elim True inRanges := by
  clear _hdate _hloc
  rw [sunPosition]
  rcases hd : dayOfYear year month day with _ | doy
  · simp
  · simp only [Option.some_bind]
    rcases hq : pyDiv (numOf (timeOf year doy (hour + m / 60 + s / 3600)))
        (denOf (timeOf year doy (hour + m / 60 + s / 3600))) with _ | q
    · simp [hq]
    · simp only [hq, Option.some_bind]
      exact afterRa_ranges _ _ _ _ _

/-- Witness for C1 at the reference input 2024-06-20 12:00:00,
latitude 43.5, longitude -80.5. -/
theorem C1_witness :
    ((1 : ℤ) ≤ 6 ∧ (6 : ℤ) ≤ 12 ∧ (1 : ℤ) ≤ 20 ∧ (20 : ℤ) ≤ daysInMonth 2024 6) ∧
    (-(90 : ℝ) ≤ 43.5 ∧ (43.5 : ℝ) ≤ 90 ∧ -(180 : ℝ) ≤ -80.5 ∧ (-80.5 : ℝ) ≤ 180) ∧
    (sunPosition 2024 6 20 12 0 0 43.5 (-80.5)).elim True inRanges :=
  ⟨by decide, by norm_num,
    C1_output_ranges 2024 6 20 12 0 0 43.5 (-80.5) (by decide) (by norm_num)⟩

/-! ### A concrete epoch: 2000-01-01, 11:00 civil time (time = -1/24)

The counterexamples for C3, C4 and C7 are built at this date.  The sign of
cos(eclipticLongitude) and sin(eclipticLongitude) can be settled there with
nothing more than the [-1, 1] bounds on the sine terms, because the mean
longitude sits near 280° and the perturbation terms total at most 1.935°. -/

noncomputable def t0 : ℝ := -(1 / 24)

lemma timeOf_t0 : timeOf 2000 1 11 = t0 := by
  rw [timeOf, jdOf, t0]
  norm_num [Int.floor_eq_iff]

lemma mnlong_t0 : mnlongOf t0 = 280.460 + 0.9856474 * t0 := by
  rw [mnlongOf]
  apply mod360_eq_self <;> (rw [t0]; norm_num)

lemma eclongDeg_t0_mem : eclongDegOf t0 ∈ Set.Ioo (270 : ℝ) 360 := by
  have hs1 := Real.neg_one_le_sin (mnanomOf t0)
  have hs2 := Real.sin_le_one (mnanomOf t0)
  have hs3 := Real.neg_one_le_sin (2 * mnanomOf t0)
  have hs4 := Real.sin_le_one (2 * mnanomOf t0)
  have hval : (280.460 : ℝ) + 0.9856474 * t0 = 280.460 - 0.9856474 / 24 := by
    rw [t0]; ring
  rw [eclongDegOf, mnlong_t0]
  rw [mod360_eq_self (by linarith) (by linarith)]
  constructor <;> linarith

lemma den_t0_pos : 0 < denOf t0 := by
  obtain ⟨h1, h2⟩ := eclongDeg_t0_mem
  have hpi := Real.pi_pos
  have hu1 : -(π / 2) < eclongOf t0 - 2 * π := by
    rw [eclongOf, deg2rad]
    nlinarith
  have hu2 : eclongOf t0 - 2 * π < 0 := by
    rw [eclongOf, deg2rad]
    nlinarith
  rw [denOf, ← Real.cos_sub_two_pi]
  exact Real.cos_pos_of_mem_Ioo ⟨hu1, by linarith⟩

lemma sin_eclong_t0_neg : sin (eclongOf t0) < 0 := by
  obtain ⟨h1, h2⟩ := eclongDeg_t0_mem
  have hpi := Real.pi_pos
  have hu1 : -(π / 2) < eclongOf t0 - 2 * π := by
    rw [eclongOf, deg2rad]
    nlinarith
  have hu2 : eclongOf t0 - 2 * π < 0 := by
    rw [eclongOf, deg2rad]
    nlinarith
  rw [← Real.sin_sub_two_pi]
  exact Real.sin_neg_of_neg_of_neg_pi_lt hu2 (by linarith)

lemma oblqec_t0_mem : oblqecOf t0 ∈ Set.Ioo (0 : ℝ) 0.41 := by
  have hpi := Real.pi_pos
  have hlt := Real.pi_lt_d6
  have ht : t0 = -(1 / 24) := rfl
  have hc : (0 : ℝ) < 23.439 - 0.0000004 * t0 := by rw [ht]; norm_num
  rw [oblqecOf, deg2rad]
  constructor
  · exact mul_pos hc (by positivity)
  · rw [ht]
    rw [ht] at hc
    nlinarith

lemma cos_oblqec_t0_pos : 0 < cos (oblqecOf t0) := by
  obtain ⟨h1, h2⟩ := oblqec_t0_mem
  have h3 := Real.pi_gt_three
  exact Real.cos_pos_of_mem_Ioo ⟨by linarith, by linarith⟩

lemma sin_oblqec_t0_mem : sin (oblqecOf t0) ∈ Set.Ioo (0 : ℝ) 0.41 := by
  obtain ⟨h1, h2⟩ := oblqec_t0_mem
  have h3 := Real.pi_gt_three
  constructor
  · exact Real.sin_pos_of_pos_of_lt_pi h1 (by linarith)
  · exact lt_trans (Real.sin_lt h1) h2

lemma num_t0_neg : numOf t0 < 0 :=
  mul_neg_of_pos_of_neg cos_oblqec_t0_pos sin_eclong_t0_neg

lemma ra_t0_mem : raOf t0 ∈ Set.Ioo (3 * π / 2) (2 * π) := by
  have hden := den_t0_pos
  have hnum := num_t0_neg
  have hq : numOf t0 / denOf t0 < 0 := div_neg_of_neg_of_pos hnum hden
  have h1 := arctan_neg_of_neg hq
  have h2 := Real.neg_pi_div_two_lt_arctan (numOf t0 / denOf t0)
  rw [raOf, raCorrect, if_neg (not_lt.2 hden.le), if_pos ⟨hden.le, hnum⟩, twopi]
  constructor <;> linarith

lemma gmst_t0 : gmstOf t0 11 = 6.697375 + 0.0657098242 * t0 + 11 := by
  rw [gmstOf]
  apply mod24_eq_self <;> (rw [t0]; norm_num)

/-- Choosing longitude 15 * (w * 12/π - gmst) forces the local sidereal time
to be exactly w, for any target w in [0, 2π). -/
lemma lmstOf_inv (time hr : ℝ) {w : ℝ} (h0 : 0 ≤ w) (h1 : w < 2 * π) :
    lmstOf time hr (15 * (w * 12 / π - gmstOf time hr)) = w := by
  have hpi := Real.pi_pos
  have harg : gmstOf time hr + 15 * (w * 12 / π - gmstOf time hr) / 15 = w * 12 / π := by
    ring
  have hub : w * 12 / π < 24 := by
    rw [div_lt_iff₀ hpi]
    linarith
  have hlb : 0 ≤ w * 12 / π := div_nonneg (by linarith) hpi.le
  rw [lmstOf, harg, mod24_eq_self hlb hub, deg2rad]
  field_simp
  ring

lemma haCorrect_eq_self {x : ℝ} (h1 : -π ≤ x) (h2 : x ≤ π) : haCorrect x = x := by
  rw [haCorrect]
  show x + (if x < -π then twopi else 0) -
    (if π < x + (if x < -π then twopi else 0) then twopi else 0) = x
  rw [if_neg (not_lt.2 h1), add_zero, if_neg (not_lt.2 h2), sub_zero]

/-! ### Claim C7 (counterexample part): the hour angle can be exactly -π -/

/-- A longitude, within [-180, 180], that makes the local sidereal time at
2000-01-01 11:00 equal ra - π exactly, so that the hour angle is -π. -/
noncomputable def longC7 : ℝ := 15 * ((raOf t0 - π) * 12 / π - gmstOf t0 11)

lemma lmst_C7 : lmstOf t0 11 longC7 = raOf t0 - π := by
  obtain ⟨h1, h2⟩ := ra_t0_mem
  have hpi := Real.pi_pos
  rw [longC7]
  exact lmstOf_inv t0 11 (by linarith) (by linarith)

lemma ha_C7 : haOf t0 11 longC7 = -π := by
  have hpi := Real.pi_pos
  have harg : lmstOf t0 11 longC7 - raOf t0 = -π := by rw [lmst_C7]; ring
  rw [haOf, harg]
  exact haCorrect_eq_self (le_refl _) (by linarith)

/-- C7 counterexample: a valid input (2000-01-01, 11:00, longitude in range)
whose internal hour angle is exactly -π, outside the claimed (-π, π]. -/
theorem C7_counterexample :
    dayOfYear 2000 1 1 = some 1 ∧ -180 ≤ longC7 ∧ longC7 ≤ 180 ∧
    haOf (timeOf 2000 1 11) 11 longC7 = -π ∧
    ¬(-π < haOf (timeOf 2000 1 11) 11 longC7) := by
  have hpi := Real.pi_pos
  obtain ⟨hra1, hra2⟩ := ra_t0_mem
  have hw1 : 6 < (raOf t0 - π) * 12 / π := by
    rw [lt_div_iff₀ hpi]
    linarith
  have hw2 : (raOf t0 - π) * 12 / π < 12 := by
    rw [div_lt_iff₀ hpi]
    linarith
  have hgv : gmstOf t0 11 = 6.697375 - 0.0657098242 / 24 + 11 := by
    rw [gmst_t0, t0]
    ring
  refine ⟨by decide, ?_, ?_, ?_, ?_⟩
  · rw [longC7]
    linarith
  · rw [longC7]
    linarith
  · rw [timeOf_t0]
    exact ha_C7
  · rw [timeOf_t0, ha_C7]
    exact lt_irrefl _

/-! ### Unfolding sunPosition past the two fallible divisions -/

/-- When the month lookup succeeds and the right-ascension denominator is
nonzero but cos(elevation) is exactly zero, the azimuth division divides by
zero and sunPosition fails. -/
lemma sunPosition_none_of_el (year month day : ℤ) (hour m s lat long hr : ℝ) (doy : ℤ)
    (hhr : hour + m / 60 + s / 3600 = hr)
    (hdoy : dayOfYear year month day = some doy)
    (hden : denOf (timeOf year doy hr) ≠ 0)
    (hel : cos (elOf (timeOf year doy hr) hr lat long) = 0) :
    sunPosition year month day hour m s lat long = none := by
  subst hhr
  simp only [sunPosition, hdoy, Option.some_bind]
  rw [pyDiv, if_neg hden, Option.some_bind, ← raOf, afterRa]
  change (pyDiv _ (cos (elOf (timeOf year doy (hour + m / 60 + s / 3600))
    (hour + m / 60 + s / 3600) lat long))).map _ = none
  rw [pyDiv, if_pos hel]
  rfl

/-- When the month lookup succeeds and neither fallible division hits a zero
denominator, sunPosition returns a value. -/
lemma sunPosition_isSome_of (year month day : ℤ) (hour m s lat long hr : ℝ) (doy : ℤ)
    (hhr : hour + m / 60 + s / 3600 = hr)
    (hdoy : dayOfYear year month day = some doy)
    (hden : denOf (timeOf year doy hr) ≠ 0)
    (hel : cos (elOf (timeOf year doy hr) hr lat long) ≠ 0) :
    (sunPosition year month day hour m s lat long).isSome = true := by
  subst hhr
  simp only [sunPosition, hdoy, Option.some_bind]
  rw [pyDiv, if_neg hden, Option.some_bind, ← raOf, afterRa]
  change ((pyDiv _ (cos (elOf (timeOf year doy (hour + m / 60 + s / 3600))
    (hour + m / 60 + s / 3600) lat long))).map _).isSome = true
  rw [pyDiv, if_neg hel]
  rfl

/-! ### Claim C4: degenerate geometry is an error, not a sentinel -/

/-- The latitude (in degrees) equal to the solar declination at t0: it puts
the sun exactly at the zenith when the hour angle is zero. -/
noncomputable def latC4 : ℝ := decOf t0 / deg2rad

/-- A longitude making the local sidereal time equal the right ascension at
2000-01-01 11:00, so that the hour angle is exactly zero. -/
noncomputable def longC4 : ℝ := 15 * (raOf t0 * 12 / π - gmstOf t0 11)

lemma lmst_C4 : lmstOf t0 11 longC4 = raOf t0 := by
  obtain ⟨h1, h2⟩ := ra_t0_mem
  have hpi := Real.pi_pos
  rw [longC4]
  exact lmstOf_inv t0 11 (by linarith) h2

lemma ha_C4 : haOf t0 11 longC4 = 0 := by
  have hpi := Real.pi_pos
  have harg : lmstOf t0 11 longC4 - raOf t0 = 0 := by rw [lmst_C4]; ring
  rw [haOf, harg]
  exact haCorrect_eq_self (by linarith) hpi.le

lemma latr_C4 : latC4 * deg2rad = decOf t0 := by
  have hd : deg2rad ≠ 0 := by rw [deg2rad]; positivity
  rw [latC4, div_mul_cancel₀ _ hd]

/-- At latC4 and longC4 the elevation is exactly 90°, i.e. π/2 radians. -/
lemma el_C4 : elOf t0 11 latC4 longC4 = π / 2 := by
  rw [elOf, latr_C4, ha_C4, Real.cos_zero]
  have hid : sin (decOf t0) * sin (decOf t0) + cos (decOf t0) * cos (decOf t0) * 1 = 1 := by
    linear_combination Real.sin_sq_add_cos_sq (decOf t0)
  rw [hid, Real.arcsin_one]

/-- C4 counterexample: at a latitude within [-90, 90] that puts the sun at
elevation exactly 90°, sunPosition fails with a division by zero instead of
returning any sentinel result. -/
theorem C4_counterexample :
    elOf (timeOf 2000 1 11) 11 latC4 longC4 = π / 2 ∧
    -90 ≤ latC4 ∧ latC4 ≤ 90 ∧
    sunPosition 2000 1 1 11 0 0 latC4 longC4 = none := by
  have hpi := Real.pi_pos
  have hd : (0 : ℝ) < deg2rad := by rw [deg2rad]; positivity
  have harc1 := Real.neg_pi_div_two_le_arcsin (sin (oblqecOf t0) * sin (eclongOf t0))
  have harc2 := Real.arcsin_le_pi_div_two (sin (oblqecOf t0) * sin (eclongOf t0))
  refine ⟨by rw [timeOf_t0]; exact el_C4, ?_, ?_, ?_⟩
  · rw [latC4, le_div_iff₀ hd, deg2rad, decOf]
    linarith
  · rw [latC4, div_le_iff₀ hd, deg2rad, decOf]
    linarith
  · exact sunPosition_none_of_el 2000 1 1 11 0 0 latC4 longC4 11 1 (by norm_num) (by decide)
      (by rw [timeOf_t0]; exact den_t0_pos.ne')
      (by rw [timeOf_t0, el_C4, Real.cos_pi_div_two])

/-- C4 (amended): the source has no division-by-zero guard.  Whenever the
month lookup succeeds, the right-ascension denominator is nonzero, and
cos(elevation) is exactly zero (elevation exactly ±90°), the azimuth stage
divides by zero and sunPosition fails instead of returning a sentinel. -/
theorem C4_no_guard (year month day : ℤ) (hour m s lat long hr : ℝ) (doy : ℤ)
    (hhr : hour + m / 60 + s / 3600 = hr)
    (hdoy : dayOfYear year month day = some doy)
    (hden : denOf (timeOf year doy hr) ≠ 0)
    (hel : cos (elOf (timeOf year doy hr) hr lat long) = 0) :
    sunPosition year month day hour m s lat long = none :=
  sunPosition_none_of_el year month day hour m s lat long hr doy hhr hdoy hden hel

/-- Witness for C4 at the constructed zenith input. -/
theorem C4_witness : sunPosition 2000 1 1 11 0 0 latC4 longC4 = none :=
  C4_no_guard 2000 1 1 11 0 0 latC4 longC4 11 1 (by norm_num) (by decide)
    (by rw [timeOf_t0]; exact den_t0_pos.ne')
    (by rw [timeOf_t0, el_C4, Real.cos_pi_div_two])

/-! ### Claim C3: there is no input validation -/

/-- A longitude making the hour angle at 2000-01-01 11:00 equal -π/2, so
that cos(hourAngle) = 0 and the elevation stays safely away from ±90°. -/
noncomputable def longC3 : ℝ := 15 * ((raOf t0 - π / 2) * 12 / π - gmstOf t0 11)

lemma lmst_C3 : lmstOf t0 11 longC3 = raOf t0 - π / 2 := by
  obtain ⟨h1, h2⟩ := ra_t0_mem
  have hpi := Real.pi_pos
  rw [longC3]
  exact lmstOf_inv t0 11 (by linarith) (by linarith)

lemma ha_C3 : haOf t0 11 longC3 = -(π / 2) := by
  have hpi := Real.pi_pos
  have harg : lmstOf t0 11 longC3 - raOf t0 = -(π / 2) := by rw [lmst_C3]; ring
  rw [haOf, harg]
  exact haCorrect_eq_self (by linarith) (by linarith)

/-- The sine of the declination at t0 is below sin(obliquity) < 0.41 in
absolute value. -/
lemma sin_dec_t0_small : sin (decOf t0) ∈ Set.Ioo (-(0.41) : ℝ) 0.41 := by
  obtain ⟨ho1, ho2⟩ := sin_oblqec_t0_mem
  have he1 := Real.neg_one_le_sin (eclongOf t0)
  have he2 := Real.sin_le_one (eclongOf t0)
  have hu : sin (oblqecOf t0) * sin (eclongOf t0) ≤ sin (oblqecOf t0) * 1 :=
    mul_le_mul_of_nonneg_left he2 ho1.le
  have hl : sin (oblqecOf t0) * (-1) ≤ sin (oblqecOf t0) * sin (eclongOf t0) :=
    mul_le_mul_of_nonneg_left he1 ho1.le
  rw [mul_one] at hu
  rw [mul_neg_one] at hl
  rw [decOf, Real.sin_arcsin (by linarith) (by linarith)]
  constructor <;> linarith

lemma cos_el_C3_pos : 0 < cos (elOf t0 11 200 longC3) := by
  obtain ⟨hs1, hs2⟩ := sin_dec_t0_small
  rw [elOf, ha_C3, Real.cos_neg, Real.cos_pi_div_two, mul_zero, add_zero]
  rw [Real.cos_arcsin]
  apply Real.sqrt_pos.2
  have hb1 := Real.neg_one_le_sin ((200 : ℝ) * deg2rad)
  have hb2 := Real.sin_le_one ((200 : ℝ) * deg2rad)
  have hbsq : (sin ((200 : ℝ) * deg2rad)) ^ 2 ≤ 1 := by nlinarith
  have hasq : (sin (decOf t0)) ^ 2 < 1 := by nlinarith
  have key : (sin (decOf t0) * sin ((200 : ℝ) * deg2rad)) ^ 2 ≤ (sin (decOf t0)) ^ 2 := by
    have h := mul_le_mul_of_nonneg_left hbsq (sq_nonneg (sin (decOf t0)))
    calc (sin (decOf t0) * sin ((200 : ℝ) * deg2rad)) ^ 2
        = (sin (decOf t0)) ^ 2 * (sin ((200 : ℝ) * deg2rad)) ^ 2 := by ring
      _ ≤ (sin (decOf t0)) ^ 2 * 1 := h
      _ = (sin (decOf t0)) ^ 2 := mul_one _
  linarith

/-- C3 (amended): sunPosition validates nothing.  Whenever the month lookup
succeeds (any month 1-12, and even month ≤ 0 via negative list indexing),
the call fails only when one of the two divisions hits an exactly-zero
denominator, regardless of day, latitude, or longitude ranges; a month
beyond the table (e.g. 13) fails only through the list lookup itself. -/
theorem C3_no_validation :
    (∀ (year month day : ℤ) (hour m s lat long hr : ℝ) (doy : ℤ),
      hour + m / 60 + s / 3600 = hr → dayOfYear year month day = some doy →
      (sunPosition year month day hour m s lat long = none ↔
        denOf (timeOf year doy hr) = 0 ∨
          (denOf (timeOf year doy hr) ≠ 0 ∧
            cos (elOf (timeOf year doy hr) hr lat long) = 0))) ∧
    (∀ (year day : ℤ) (hour m s lat long : ℝ),
      sunPosition year 13 day hour m s lat long = none) := by
  constructor
  · intro year month day hour m s lat long hr doy hhr hdoy
    subst hhr
    by_cases hden : denOf (timeOf year doy (hour + m / 60 + s / 3600)) = 0
    · have hnone : sunPosition year month day hour m s lat long = none := by
        simp only [sunPosition, hdoy, Option.some_bind, pyDiv, if_pos hden, Option.none_bind]
      rw [hnone]
      simp [hden]
    · by_cases hel : cos (elOf (timeOf year doy (hour + m / 60 + s / 3600))
          (hour + m / 60 + s / 3600) lat long) = 0
      · have hnone := sunPosition_none_of_el year month day hour m s lat long _ doy rfl
          hdoy hden hel
        rw [hnone]
        simp [hden, hel]
      · have hsome := sunPosition_isSome_of year month day hour m s lat long _ doy rfl
          hdoy hden hel
        have hne : sunPosition year month day hour m s lat long ≠ none :=
          Option.ne_none_iff_isSome.2 hsome
        simp [hne, hden, hel]
  · intro year day hour m s lat long
    have h : dayOfYear year 13 day = none := rfl
    simp only [sunPosition, h, Option.none_bind]

/-- C3 counterexample: latitude 200 is far outside [-90, 90], yet
sunPosition happily returns a value (no InvalidInput failure exists in the
code). -/
theorem C3_counterexample :
    (90 : ℝ) < 200 ∧ (sunPosition 2000 1 1 11 0 0 200 longC3).isSome = true := by
  refine ⟨by norm_num, ?_⟩
  exact sunPosition_isSome_of 2000 1 1 11 0 0 200 longC3 11 1 (by norm_num) (by decide)
    (by rw [timeOf_t0]; exact den_t0_pos.ne')
    (by rw [timeOf_t0]; exact cos_el_C3_pos.ne')

/-- Witness for C3 (amended) at an input with invalid day (50) and invalid
latitude (200): the failure criterion is exactly the two divisions, no range
check anywhere. -/
theorem C3_witness :
    ((11 : ℝ) + 0 / 60 + 0 / 3600 = 11) ∧ dayOfYear 2000 2 50 = some 82 ∧
    (sunPosition 2000 2 50 11 0 0 200 0 = none ↔
      denOf (timeOf 2000 82 11) = 0 ∨
        (denOf (timeOf 2000 82 11) ≠ 0 ∧ cos (elOf (timeOf 2000 82 11) 11 200 0) = 0)) :=
  ⟨by norm_num, by decide,
    C3_no_validation.1 2000 2 50 11 0 0 200 0 11 82 (by norm_num) (by decide)⟩
